import Mathlib

/-!
Shallow embedding of the timetable application (`src/main.py`) and proofs of
its specified properties.

The application persists its state in a local SQLite database with three
tables (`classes`, `class_history`, `lesson_plans`) plus a small JSON sentinel
file `previous_monday.json` holding the date of the last weekly backup.  We
model the database as a record of row lists together with the autoincrement
counters of each table, and the sentinel file as an `Option String` (absent
file, or the stored `last_backup` string).  Each operation of the program is
translated as a pure state transformer.
-/

/-- Schema presence flags: which tables exist and whether the two optional
columns (`grade`, `time`) have been added to `classes`.  `CREATE TABLE IF NOT
EXISTS` and the guarded `ALTER TABLE ADD COLUMN` statements act on these. -/
structure Schema where
  classes_exists : Bool
  class_history_exists : Bool
  lesson_plans_exists : Bool
  has_grade : Bool
  has_time : Bool
  deriving DecidableEq, Repr

/-- A row of the `classes` table.  Mirrors the columns
`id, name, duration, lesson_prepared, done, classroom_created, day`
plus the two later-added columns `grade` and `time`. -/
structure ClassRow where
  id : Nat
  name : String
  duration : String
  grade : String
  time : String
  lesson_prepared : Bool
  done : Bool
  classroom_created : Bool
  day : String
  deriving DecidableEq, Repr

/-- A row of the `class_history` archive table: a snapshot of a class row
plus the backup date (column default `date('now')`, i.e. today). -/
structure HistoryRow where
  id : Nat
  original_class_id : Nat
  name : String
  duration : String
  grade : String
  time : String
  lesson_prepared : Bool
  done : Bool
  classroom_created : Bool
  day : String
  backup_date : String
  deriving DecidableEq, Repr

/-- A row of the `lesson_plans` table: `id, class_id, day, plan_text`. -/
structure PlanRow where
  id : Nat
  class_id : Nat
  day : String
  plan_text : String
  deriving DecidableEq, Repr

/-- The whole persistent store: schema flags, the three tables (in rowid
order), and the next autoincrement id of each table. -/
structure DB where
  schema : Schema
  classes : List ClassRow
  class_history : List HistoryRow
  lesson_plans : List PlanRow
  next_class_id : Nat
  next_history_id : Nat
  next_plan_id : Nat
  deriving DecidableEq, Repr

/-- Whitespace characters recognised by Python's `str.strip()` (ASCII part). -/
def isPySpace (c : Char) : Bool :=
  c == ' ' || c == '\t' || c == '\n' || c == '\r' || c == '\x0b' || c == '\x0c'

/-- Model of Python's `str.strip()`: drop leading and trailing whitespace. -/
def pyStrip (s : String) : String :=
  String.mk (((s.data.dropWhile isPySpace).reverse.dropWhile isPySpace).reverse)

/-- `TimetableApp.init_db`: `CREATE TABLE IF NOT EXISTS` for each of the three
tables.  A table that already exists is left untouched; a table that does not
exist is created empty (autoincrement starting at 1). -/
def init_db (db : DB) : DB :=
  { db with
    schema := { db.schema with
      classes_exists := true
      class_history_exists := true
      lesson_plans_exists := true }
    classes := if db.schema.classes_exists then db.classes else []
    next_class_id := if db.schema.classes_exists then db.next_class_id else 1
    class_history := if db.schema.class_history_exists then db.class_history else []
    next_history_id := if db.schema.class_history_exists then db.next_history_id else 1
    lesson_plans := if db.schema.lesson_plans_exists then db.lesson_plans else []
    next_plan_id := if db.schema.lesson_plans_exists then db.next_plan_id else 1 }

/-- `TimetableApp.alter_table_add_columns`: try `ALTER TABLE classes ADD COLUMN
grade TEXT DEFAULT ''` and likewise for `time`; an `OperationalError` (column
already present, or no such table) is swallowed by the bare
`except sqlite3.OperationalError: pass`.  When a column is actually added,
existing rows receive the declared default `''`. -/
def alter_table_add_columns (db : DB) : DB :=
  let db1 :=
    if db.schema.classes_exists && !db.schema.has_grade then
      { db with
        schema := { db.schema with has_grade := true }
        classes := db.classes.map (fun r => { r with grade := "" }) }
    else db
  if db1.schema.classes_exists && !db1.schema.has_time then
    { db1 with
      schema := { db1.schema with has_time := true }
      classes := db1.classes.map (fun r => { r with time := "" }) }
  else db1

/-- The archive snapshot of one class row, as built by the `INSERT INTO
class_history (original_class_id, name, duration, grade, time,
lesson_prepared, done, classroom_created, day)` statement; `backup_date`
takes its column default, today's date. -/
def mkHistory (n : Nat) (c : ClassRow) (today : String) : HistoryRow :=
  { id := n
    original_class_id := c.id
    name := c.name
    duration := c.duration
    grade := c.grade
    time := c.time
    lesson_prepared := c.lesson_prepared
    done := c.done
    classroom_created := c.classroom_created
    day := c.day
    backup_date := today }

/-- The list of archive rows produced by the per-row insertion loop of
`backup_if_monday`, with autoincrement ids starting at `n`. -/
def archiveRows : Nat → String → List ClassRow → List HistoryRow
  | _, _, [] => []
  | n, today, c :: cs => mkHistory n c today :: archiveRows (n + 1) today cs

/-- The `UPDATE classes SET lesson_prepared = 0, done = 0,
classroom_created = 0` applied to one row. -/
def clearFlags (c : ClassRow) : ClassRow :=
  { c with lesson_prepared := false, done := false, classroom_created := false }

/-- `TimetableApp.backup_if_monday`.  `prev_file` is the sentinel file
`previous_monday.json` (`none` when absent; a missing file reads as `""`,
matching `data.get("last_backup", "")`).  `today_str` is today's date and
`is_monday` says whether today's weekday name is `"Monday"`.  Returns the
database and the sentinel file after the call. -/
def backup_if_monday (db : DB) (prev_file : Option String) (today_str : String)
    (is_monday : Bool) : DB × Option String :=
  let last_backup := prev_file.getD ""
  if is_monday = false ∨ last_backup = today_str then (db, prev_file)
  else
    ({ db with
        class_history := db.class_history ++ archiveRows db.next_history_id today_str db.classes
        next_history_id := db.next_history_id + db.classes.length
        classes := db.classes.map clearFlags },
     some today_str)

/-- One row of the display query of `TimetableApp.load_data`:
`SELECT c.id, c.name, c.duration, c.grade, c.time, c.lesson_prepared, c.done,
c.classroom_created, lp.plan_text`. -/
structure DisplayRow where
  id : Nat
  name : String
  duration : String
  grade : String
  time : String
  lesson_prepared : Bool
  done : Bool
  classroom_created : Bool
  plan_text : Option String
  deriving DecidableEq, Repr

/-- Display row built from a class row and the joined plan text (or NULL). -/
def displayOf (c : ClassRow) (t : Option String) : DisplayRow :=
  { id := c.id
    name := c.name
    duration := c.duration
    grade := c.grade
    time := c.time
    lesson_prepared := c.lesson_prepared
    done := c.done
    classroom_created := c.classroom_created
    plan_text := t }

/-- The plan rows joined to a class row by
`LEFT JOIN lesson_plans lp ON c.id = lp.class_id AND c.day = lp.day`. -/
def planMatches (db : DB) (c : ClassRow) : List PlanRow :=
  db.lesson_plans.filter (fun p => p.class_id == c.id && p.day == c.day)

/-- The display rows a single class row contributes under the LEFT JOIN:
one row with NULL plan text when no plan matches, otherwise one row per
matching plan. -/
def joinPlans (db : DB) (c : ClassRow) : List DisplayRow :=
  match planMatches db c with
  | [] => [displayOf c none]
  | ms => ms.map (fun p => displayOf c (some p.plan_text))

/-- The query of `TimetableApp.load_data` for one day (the list-classes(day)
entry point): classes of that day, left-joined against their lesson plans,
in natural rowid order. -/
def load_data (db : DB) (day : String) : List DisplayRow :=
  (db.classes.filter (fun c => c.day == day)).flatMap (joinPlans db)

/-- `TimetableApp.add_class_dialog` after the dialog is accepted: when both
`name.strip()` and `duration.strip()` are non-empty (Python truthiness),
insert `(name.strip(), duration.strip(), 0, 0, 0, day, grade.strip(),
time_str.strip())`; otherwise do nothing. -/
def add_class (db : DB) (name duration grade time day : String) : DB :=
  if pyStrip name ≠ "" ∧ pyStrip duration ≠ "" then
    { db with
      classes := db.classes ++
        [{ id := db.next_class_id
           name := pyStrip name
           duration := pyStrip duration
           grade := pyStrip grade
           time := pyStrip time
           lesson_prepared := false
           done := false
           classroom_created := false
           day := day }]
      next_class_id := db.next_class_id + 1 }
  else db

/-- The closed set of toggleable boolean columns stored in the cell user-role
data of `load_data` and dispatched by `handle_toggle`. -/
inductive FlagField where
  | lesson_prepared
  | done
  | classroom_created
  deriving DecidableEq, Repr

/-- Read the given boolean column of a class row. -/
def readFlag : FlagField → ClassRow → Bool
  | .lesson_prepared, c => c.lesson_prepared
  | .done, c => c.done
  | .classroom_created, c => c.classroom_created

/-- Write the given boolean column of a class row. -/
def writeFlag : FlagField → Bool → ClassRow → ClassRow
  | .lesson_prepared, b, c => { c with lesson_prepared := b }
  | .done, b, c => { c with done := b }
  | .classroom_created, b, c => { c with classroom_created := b }

/-- `TimetableApp.handle_toggle` (database part): `current` is the value shown
in the clicked cell (the stored value, since the table is reloaded after every
mutation); the statement `UPDATE classes SET field = int(not current) WHERE
id = class_id` is executed. -/
def handle_toggle (db : DB) (class_id : Nat) (f : FlagField) (current : Bool) : DB :=
  { db with
    classes := db.classes.map
      (fun r => if r.id == class_id then writeFlag f (!current) r else r) }

/-- The stored value of one flag of the class row with the given id. -/
def getFlag (db : DB) (class_id : Nat) (f : FlagField) : Option Bool :=
  (db.classes.find? (fun r => r.id == class_id)).map (readFlag f)

/-- `LessonPlanDialog.save_plan`: if a `lesson_plans` row for `(class_id,
day)` exists (`fetchone` returns a row), `UPDATE` its `plan_text`; otherwise
`INSERT` a fresh row. -/
def save_plan (db : DB) (class_id : Nat) (day plan_text : String) : DB :=
  if db.lesson_plans.any (fun p => p.class_id == class_id && p.day == day) then
    { db with
      lesson_plans := db.lesson_plans.map
        (fun p => if p.class_id == class_id && p.day == day then
            { p with plan_text := plan_text } else p) }
  else
    { db with
      lesson_plans := db.lesson_plans ++
        [{ id := db.next_plan_id, class_id := class_id, day := day, plan_text := plan_text }]
      next_plan_id := db.next_plan_id + 1 }

/-- `TimetableApp.delete_class` (after the user confirms): `DELETE FROM
classes WHERE id = ?` and `DELETE FROM lesson_plans WHERE class_id = ?`. -/
def delete_class (db : DB) (class_id : Nat) : DB :=
  { db with
    classes := db.classes.filter (fun c => c.id != class_id)
    lesson_plans := db.lesson_plans.filter (fun p => p.class_id != class_id) }

/-- The descriptive (never-mutated-after-creation) fields of a class row. -/
def descOf (c : ClassRow) : Nat × String × String × String × String × String :=
  (c.id, c.name, c.duration, c.grade, c.time, c.day)

/-- The fields of a class row that an archive snapshot copies. -/
def classSnap (c : ClassRow) :
    Nat × String × String × String × String × Bool × Bool × Bool × String :=
  (c.id, c.name, c.duration, c.grade, c.time,
   c.lesson_prepared, c.done, c.classroom_created, c.day)

/-- The copied fields of an archive row, aligned with `classSnap`. -/
def histSnap (h : HistoryRow) :
    Nat × String × String × String × String × Bool × Bool × Bool × String :=
  (h.original_class_id, h.name, h.duration, h.grade, h.time,
   h.lesson_prepared, h.done, h.classroom_created, h.day)

/-- The fields of a class row present before the `grade`/`time` columns. -/
def coreOf (c : ClassRow) : Nat × String × String × Bool × Bool × Bool × String :=
  (c.id, c.name, c.duration, c.lesson_prepared, c.done, c.classroom_created, c.day)

/-- A fully initialised schema (all tables, both optional columns). -/
def fullSchema : Schema :=
  { classes_exists := true
    class_history_exists := true
    lesson_plans_exists := true
    has_grade := true
    has_time := true }

/-- An empty, fully initialised store, for concrete instantiations. -/
def emptyDB : DB :=
  { schema := fullSchema
    classes := []
    class_history := []
    lesson_plans := []
    next_class_id := 1
    next_history_id := 1
    next_plan_id := 1 }

/-- A sample class row, for concrete instantiations. -/
def sampleClass : ClassRow :=
  { id := 1
    name := "Algebra"
    duration := "50m"
    grade := "G9"
    time := "09:00"
    lesson_prepared := true
    done := false
    classroom_created := true
    day := "Monday" }

/-- A sample store holding one class row, for concrete instantiations. -/
def sampleDB : DB :=
  { emptyDB with classes := [sampleClass], next_class_id := 2 }

lemma archiveRows_length (n : Nat) (t : String) (cs : List ClassRow) :
    (archiveRows n t cs).length = cs.length := by
  induction cs generalizing n with
  | nil => rfl
  | cons c cs ih => simp [archiveRows, ih]

lemma archiveRows_map_histSnap (n : Nat) (t : String) (cs : List ClassRow) :
    (archiveRows n t cs).map histSnap = cs.map classSnap := by
  induction cs generalizing n with
  | nil => rfl
  | cons c cs ih => simp [archiveRows, ih, histSnap, classSnap, mkHistory]

lemma archiveRows_backup_date (n : Nat) (t : String) (cs : List ClassRow) :
    ∀ h ∈ archiveRows n t cs, h.backup_date = t := by
  induction cs generalizing n with
  | nil => intro h hh; cases hh
  | cons c cs ih =>
      intro h hh
      rcases List.mem_cons.mp hh with rfl | hh
      · rfl
      · exact ih (n + 1) h hh

lemma map_map_proj {A B : Type} (l : List A) (g : A → A) (proj : A → B)
    (hg : ∀ r, proj (g r) = proj r) : (l.map g).map proj = l.map proj := by
  induction l with
  | nil => rfl
  | cons a l ih => simp [hg, ih]

/-- C1: when the weekly reset actually runs (launch on Monday with the
sentinel not equal to today's date), exactly one archive row per current
class row is appended to `class_history`, tagged with today's date and
carrying the row's descriptive fields, flags and day with their pre-reset
values; afterwards the three flags are false on every active row and today's
date is persisted as the new sentinel. -/
theorem backup_monday_archives (db : DB) (prev_file : Option String) (today : String)
    (h : prev_file.getD "" ≠ today) :
    (backup_if_monday db prev_file today true).1.class_history =
        db.class_history ++ archiveRows db.next_history_id today db.classes ∧
    (backup_if_monday db prev_file today true).1.class_history.length =
        db.class_history.length + db.classes.length ∧
    (archiveRows db.next_history_id today db.classes).map histSnap =
        db.classes.map classSnap ∧
    (∀ hr ∈ archiveRows db.next_history_id today db.classes, hr.backup_date = today) ∧
    (backup_if_monday db prev_file today true).1.classes = db.classes.map clearFlags ∧
    (∀ c ∈ (backup_if_monday db prev_file today true).1.classes,
        c.lesson_prepared = false ∧ c.done = false ∧ c.classroom_created = false) ∧
    (backup_if_monday db prev_file today true).2 = some today := by
  have hcond : ¬ ((true : Bool) = false ∨ prev_file.getD "" = today) := by
    rintro (hc | hc)
    · exact Bool.noConfusion hc
    · exact h hc
  unfold backup_if_monday
  rw [if_neg hcond]
  refine ⟨rfl, ?_, archiveRows_map_histSnap _ _ _, archiveRows_backup_date _ _ _, rfl, ?_, rfl⟩
  · simp [archiveRows_length]
  · intro c hc
    rcases List.mem_map.mp hc with ⟨a, _, rfl⟩
    exact ⟨rfl, rfl, rfl⟩

/-- Witness for C1 at a concrete store: one class row, no sentinel file. -/
theorem backup_monday_archives_witness :
    (backup_if_monday sampleDB none "2025-01-06" true).1.class_history =
        sampleDB.class_history ++
          archiveRows sampleDB.next_history_id "2025-01-06" sampleDB.classes ∧
    (backup_if_monday sampleDB none "2025-01-06" true).1.class_history.length =
        sampleDB.class_history.length + sampleDB.classes.length ∧
    (archiveRows sampleDB.next_history_id "2025-01-06" sampleDB.classes).map histSnap =
        sampleDB.classes.map classSnap ∧
    (∀ hr ∈ archiveRows sampleDB.next_history_id "2025-01-06" sampleDB.classes,
        hr.backup_date = "2025-01-06") ∧
    (backup_if_monday sampleDB none "2025-01-06" true).1.classes =
        sampleDB.classes.map clearFlags ∧
    (∀ c ∈ (backup_if_monday sampleDB none "2025-01-06" true).1.classes,
        c.lesson_prepared = false ∧ c.done = false ∧ c.classroom_created = false) ∧
    (backup_if_monday sampleDB none "2025-01-06" true).2 = some "2025-01-06" :=
  backup_monday_archives sampleDB none "2025-01-06" (by decide)

/-- C2: the weekly reset is a no-op when today is not Monday or the sentinel
already holds today's date, and running it a second time on the same date
(after any first run) changes nothing: no archive rows, no class rows, and
the sentinel is unchanged. -/
theorem backup_same_date_noop (db : DB) (prev_file : Option String) (today : String)
    (monday : Bool) :
    ((monday = false ∨ prev_file.getD "" = today) →
        backup_if_monday db prev_file today monday = (db, prev_file)) ∧
    backup_if_monday (backup_if_monday db prev_file today monday).1
        (backup_if_monday db prev_file today monday).2 today monday =
      backup_if_monday db prev_file today monday := by
  constructor
  · intro h
    unfold backup_if_monday
    rw [if_pos h]
  · by_cases hc : monday = false ∨ prev_file.getD "" = today
    · have h1 : backup_if_monday db prev_file today monday = (db, prev_file) := by
        unfold backup_if_monday; rw [if_pos hc]
      rw [h1]
      unfold backup_if_monday
      rw [if_pos hc]
    · have h1 : (backup_if_monday db prev_file today monday).2 = some today := by
        unfold backup_if_monday; rw [if_neg hc]
      conv_lhs => rw [backup_if_monday]
      rw [h1]
      have hgd : (some today).getD "" = today := rfl
      rw [if_pos (Or.inr hgd)]
      rw [← h1]

/-- Witness for C2: a same-date second launch on a Monday is a no-op. -/
theorem backup_same_date_noop_witness :
    backup_if_monday sampleDB (some "2025-01-06") "2025-01-06" true =
      (sampleDB, some "2025-01-06") :=
  (backup_same_date_noop sampleDB (some "2025-01-06") "2025-01-06" true).1 (Or.inr rfl)

/-- C10: the weekly reset never touches the `lesson_plans` table, whether or
not it actually runs. -/
theorem backup_preserves_lesson_plans (db : DB) (prev_file : Option String)
    (today : String) (monday : Bool) :
    (backup_if_monday db prev_file today monday).1.lesson_plans = db.lesson_plans := by
  by_cases hc : monday = false ∨ prev_file.getD "" = today
  · unfold backup_if_monday
    rw [if_pos hc]
  · unfold backup_if_monday
    rw [if_neg hc]

lemma descOf_writeFlag (f : FlagField) (b : Bool) (r : ClassRow) :
    descOf (writeFlag f b r) = descOf r := by
  cases f <;> rfl

/-- C9: none of the mutating operations (toggle a flag, upsert a note, weekly
reset) changes the id, name, duration, grade, time or day of any class row. -/
theorem mutations_preserve_descriptive_fields (db : DB) (cid : Nat) (f : FlagField)
    (cur : Bool) (day text : String) (prev_file : Option String) (today : String)
    (monday : Bool) :
    (handle_toggle db cid f cur).classes.map descOf = db.classes.map descOf ∧
    (save_plan db cid day text).classes.map descOf = db.classes.map descOf ∧
    (backup_if_monday db prev_file today monday).1.classes.map descOf =
      db.classes.map descOf := by
  refine ⟨?_, ?_, ?_⟩
  · apply map_map_proj
    intro r
    dsimp only
    split
    · exact descOf_writeFlag f (!cur) r
    · rfl
  · have hcl : (save_plan db cid day text).classes = db.classes := by
      unfold save_plan; split <;> rfl
    rw [hcl]
  · by_cases hc : monday = false ∨ prev_file.getD "" = today
    · unfold backup_if_monday
      rw [if_pos hc]
    · unfold backup_if_monday
      rw [if_neg hc]
      exact map_map_proj _ _ _ (fun r => rfl)

lemma joinPlans_congr (db1 db2 : DB) (h : db1.lesson_plans = db2.lesson_plans)
    (c : ClassRow) : joinPlans db1 c = joinPlans db2 c := by
  unfold joinPlans planMatches
  rw [h]

/-- C3 counterexample: the pair `(" Algebra ", "50m")` has non-empty trimmed
values, yet after adding it no listed row carries the name `" Algebra "` —
the stored name is the trimmed `"Algebra"`. -/
theorem add_class_raw_values_counterexample :
    pyStrip " Algebra " ≠ "" ∧ pyStrip "50m" ≠ "" ∧
    load_data (add_class emptyDB " Algebra " "50m" "" "" "Monday") "Monday" ≠ [] ∧
    (∀ row ∈ load_data (add_class emptyDB " Algebra " "50m" "" "" "Monday") "Monday",
        row.name ≠ " Algebra ") := by decide

lemma load_data_append_row (db : DB) (nr : ClassRow) (nid : Nat)
    (hfresh : ∀ p ∈ db.lesson_plans, p.class_id ≠ nr.id) :
    load_data { db with classes := db.classes ++ [nr], next_class_id := nid } nr.day =
      load_data db nr.day ++ [displayOf nr none] := by
  unfold load_data
  have hjp : joinPlans { db with classes := db.classes ++ [nr], next_class_id := nid } =
      joinPlans db :=
    funext fun c => joinPlans_congr _ _ rfl c
  show ((db.classes ++ [nr]).filter (fun c => c.day == nr.day)).flatMap _ = _
  rw [hjp, List.filter_append, List.flatMap_append]
  congr 1
  have hday : List.filter (fun (c : ClassRow) => c.day == nr.day) [nr] = [nr] := by simp
  rw [hday]
  show joinPlans db nr ++ [] = [displayOf nr none]
  rw [List.append_nil]
  unfold joinPlans
  have hpm : planMatches db nr = [] := by
    unfold planMatches
    refine List.filter_eq_nil_iff.mpr ?_
    intro p hp
    simp only [Bool.and_eq_true, beq_iff_eq, not_and]
    intro hcid
    exact absurd hcid (hfresh p hp)
  rw [hpm]

/-- C3 (amended): for all (name, duration) pairs whose trimmed values are
non-empty, add-class for a day followed by list-classes(day) returns exactly
the previous rows plus one new row holding the trimmed name and duration
(and trimmed grade/time), with all three boolean flags false and no plan. -/
theorem add_then_list (db : DB) (name duration grade time day : String)
    (hn : pyStrip name ≠ "") (hd : pyStrip duration ≠ "")
    (hfresh : ∀ p ∈ db.lesson_plans, p.class_id ≠ db.next_class_id) :
    load_data (add_class db name duration grade time day) day =
      load_data db day ++
        [{ id := db.next_class_id, name := pyStrip name, duration := pyStrip duration,
           grade := pyStrip grade, time := pyStrip time,
           lesson_prepared := false, done := false, classroom_created := false,
           plan_text := none }] := by
  have hins : add_class db name duration grade time day =
      { db with
        classes := db.classes ++
          [{ id := db.next_class_id
             name := pyStrip name
             duration := pyStrip duration
             grade := pyStrip grade
             time := pyStrip time
             lesson_prepared := false
             done := false
             classroom_created := false
             day := day }]
        next_class_id := db.next_class_id + 1 } := by
    unfold add_class
    rw [if_pos ⟨hn, hd⟩]
  rw [hins]
  exact load_data_append_row db _ (db.next_class_id + 1) (fun p hp => hfresh p hp)

/-- Witness for the amended C3 at a concrete store and padded inputs. -/
theorem add_then_list_witness :
    load_data (add_class emptyDB " Algebra " " 50m " " G9 " " 09:00 " "Tuesday") "Tuesday" =
      load_data emptyDB "Tuesday" ++
        [{ id := 1, name := "Algebra", duration := "50m", grade := "G9", time := "09:00",
           lesson_prepared := false, done := false, classroom_created := false,
           plan_text := none }] :=
  add_then_list emptyDB " Algebra " " 50m " " G9 " " 09:00 " "Tuesday"
    (by decide) (by decide) (by decide)

/-- C4: adding a class with an empty or whitespace-only name or duration is a
silent no-op: the store is unchanged, and list-classes(day) has the same row
count for every day. -/
theorem add_class_invalid_noop (db : DB) (name duration grade time day : String)
    (h : pyStrip name = "" ∨ pyStrip duration = "") :
    add_class db name duration grade time day = db ∧
    ∀ d, (load_data (add_class db name duration grade time day) d).length =
        (load_data db d).length := by
  have hng : ¬(pyStrip name ≠ "" ∧ pyStrip duration ≠ "") := by
    rcases h with h | h
    · rintro ⟨hn, _⟩; exact hn h
    · rintro ⟨_, hd⟩; exact hd h
  have hid : add_class db name duration grade time day = db := by
    unfold add_class
    rw [if_neg hng]
  exact ⟨hid, fun d => by rw [hid]⟩

/-- Witness for C4: a whitespace-only name at a concrete store. -/
theorem add_class_invalid_noop_witness :
    add_class sampleDB "   " "50m" "" "" "Monday" = sampleDB ∧
    ∀ d, (load_data (add_class sampleDB "   " "50m" "" "" "Monday") d).length =
        (load_data sampleDB d).length :=
  add_class_invalid_noop sampleDB "   " "50m" "" "" "Monday" (Or.inl (by decide))

lemma joinPlans_id (db : DB) (c : ClassRow) :
    ∀ row ∈ joinPlans db c, row.id = c.id := by
  intro row hrow
  unfold joinPlans at hrow
  cases hm : planMatches db c with
  | nil =>
      rw [hm] at hrow
      simp only [List.mem_singleton] at hrow
      rw [hrow]
      rfl
  | cons p ps =>
      rw [hm] at hrow
      rcases List.mem_map.mp hrow with ⟨q, _, rfl⟩
      rfl

/-- C7: after delete-class(id), list-classes(day) returns no row with that id
for any day, and every dependent lesson-plan row for that id is gone. -/
theorem delete_class_removes (db : DB) (cid : Nat) :
    (∀ day, ∀ row ∈ load_data (delete_class db cid) day, row.id ≠ cid) ∧
    (∀ p ∈ (delete_class db cid).lesson_plans, p.class_id ≠ cid) := by
  constructor
  · intro day row hrow
    unfold load_data at hrow
    rcases List.mem_flatMap.mp hrow with ⟨c, hc, hrc⟩
    have hid := joinPlans_id _ _ row hrc
    have hcmem : c ∈ db.classes.filter (fun c => c.id != cid) :=
      List.mem_of_mem_filter hc
    have hpred := List.of_mem_filter hcmem
    rw [hid]
    simpa using hpred
  · intro p hp
    have hpred := List.of_mem_filter hp
    simpa using hpred

/-- Witness for C7 at a concrete store holding one class and one plan row. -/
theorem delete_class_removes_witness :
    (∀ row ∈ load_data (delete_class sampleDB 1) "Monday", row.id ≠ 1) ∧
    (∀ p ∈ (delete_class sampleDB 1).lesson_plans, p.class_id ≠ 1) :=
  ⟨(delete_class_removes sampleDB 1).1 "Monday", (delete_class_removes sampleDB 1).2⟩

lemma writeFlag_id (f : FlagField) (b : Bool) (r : ClassRow) :
    (writeFlag f b r).id = r.id := by
  cases f <;> rfl

lemma readFlag_writeFlag (f : FlagField) (b : Bool) (r : ClassRow) :
    readFlag f (writeFlag f b r) = b := by
  cases f <;> rfl

lemma writeFlag_writeFlag (f : FlagField) (b1 b2 : Bool) (r : ClassRow) :
    writeFlag f b2 (writeFlag f b1 r) = writeFlag f b2 r := by
  cases f <;> rfl

lemma writeFlag_read_self (f : FlagField) (r : ClassRow) :
    writeFlag f (readFlag f r) r = r := by
  cases f <;> cases r <;> rfl

/-- C5: toggling a flag of an existing class id flips its stored value, and
toggling it twice (the second click seeing the flipped value that the reload
displays) restores the whole store. -/
theorem toggle_involution (db : DB) (cid : Nat) (f : FlagField) (v : Bool)
    (hall : ∀ r ∈ db.classes, r.id = cid → readFlag f r = v)
    (hex : ∃ r ∈ db.classes, r.id = cid) :
    getFlag (handle_toggle db cid f v) cid f = some (!v) ∧
    handle_toggle (handle_toggle db cid f v) cid f (!v) = db := by
  constructor
  · unfold getFlag handle_toggle
    show ((db.classes.map _).find? _).map _ = _
    have key : ∀ l : List ClassRow, (∃ r ∈ l, r.id = cid) →
        (((l.map (fun r => if r.id == cid then writeFlag f (!v) r else r)).find?
            (fun r => r.id == cid)).map (readFlag f)) = some (!v) := by
      intro l hl
      induction l with
      | nil => rcases hl with ⟨r, hr, _⟩; cases hr
      | cons a t ih =>
          by_cases ha : a.id = cid
          · have hbeq : (a.id == cid) = true := beq_iff_eq.mpr ha
            simp only [List.map_cons, hbeq, if_pos]
            rw [List.find?_cons_of_pos]
            · simp [readFlag_writeFlag]
            · simp [writeFlag_id, ha]
          · have hbeq : (a.id == cid) = false := by simpa using ha
            simp only [List.map_cons, hbeq, Bool.false_eq_true, if_neg, reduceIte]
            rw [List.find?_cons_of_neg]
            · apply ih
              rcases hl with ⟨r, hr, hrid⟩
              rcases List.mem_cons.mp hr with rfl | hr
              · exact absurd hrid ha
              · exact ⟨r, hr, hrid⟩
            · simp [ha]
    exact key db.classes hex
  · have key : ∀ l : List ClassRow, (∀ r ∈ l, r.id = cid → readFlag f r = v) →
        ((l.map (fun r => if r.id == cid then writeFlag f (!v) r else r)).map
            (fun r => if r.id == cid then writeFlag f (!(!v)) r else r)) = l := by
      intro l hl
      induction l with
      | nil => rfl
      | cons a t ih =>
          simp only [List.map_cons]
          have htail : (t.map (fun r => if r.id == cid then writeFlag f (!v) r else r)).map
              (fun r => if r.id == cid then writeFlag f (!(!v)) r else r) = t :=
            ih (fun r hr => hl r (List.mem_cons_of_mem a hr))
          rw [htail]
          by_cases ha : a.id = cid
          · have hbeq : (a.id == cid) = true := beq_iff_eq.mpr ha
            have hbeq2 : ((writeFlag f (!v) a).id == cid) = true := by
              rw [writeFlag_id]; exact hbeq
            simp only [hbeq, if_pos, hbeq2]
            rw [writeFlag_writeFlag, Bool.not_not]
            rw [← hl a (List.mem_cons_self a t) ha]
            rw [writeFlag_read_self]
          · have hbeq : (a.id == cid) = false := by simpa using ha
            simp only [hbeq, Bool.false_eq_true, if_neg, reduceIte]
    have hcl : ((db.classes.map (fun r => if r.id == cid then writeFlag f (!v) r else r)).map
        (fun r => if r.id == cid then writeFlag f (!(!v)) r else r)) = db.classes :=
      key db.classes hall
    unfold handle_toggle
    dsimp only
    rw [hcl]

/-- Witness for C5 at a concrete store: class id 1, `lesson_prepared`. -/
theorem toggle_involution_witness :
    getFlag (handle_toggle sampleDB 1 FlagField.lesson_prepared true) 1
        FlagField.lesson_prepared = some false ∧
    handle_toggle (handle_toggle sampleDB 1 FlagField.lesson_prepared true) 1
        FlagField.lesson_prepared false = sampleDB :=
  toggle_involution sampleDB 1 FlagField.lesson_prepared true (by decide) (by decide)

/-- The lesson-plan rows stored for a given (class id, day) pair. -/
def pairPlans (db : DB) (cid : Nat) (day : String) : List PlanRow :=
  db.lesson_plans.filter (fun p => p.class_id == cid && p.day == day)

lemma filter_map_update (l : List PlanRow) (cid : Nat) (day t : String) :
    (l.map (fun p => if p.class_id == cid && p.day == day then
        { p with plan_text := t } else p)).filter
          (fun p => p.class_id == cid && p.day == day) =
      (l.filter (fun p => p.class_id == cid && p.day == day)).map
        (fun p => { p with plan_text := t }) := by
  induction l with
  | nil => rfl
  | cons a l ih =>
      by_cases ha : (a.class_id == cid && a.day == day) = true
      · simp only [List.map_cons, ha, if_pos, List.filter_cons, ih]
      · simp only [List.map_cons, ha, Bool.false_eq_true, if_neg, reduceIte,
          List.filter_cons, ih]

lemma any_iff_pair (db : DB) (cid : Nat) (day : String) :
    db.lesson_plans.any (fun p => p.class_id == cid && p.day == day) = true ↔
      pairPlans db cid day ≠ [] := by
  unfold pairPlans
  constructor
  · intro h hnil
    rcases List.any_eq_true.mp h with ⟨p, hp, hpp⟩
    exact (List.filter_eq_nil_iff.mp hnil p hp) hpp
  · intro h
    by_contra hany
    apply h
    apply List.filter_eq_nil_iff.mpr
    intro p hp hpp
    exact hany (List.any_eq_true.mpr ⟨p, hp, hpp⟩)

lemma save_plan_plans_pos (db : DB) (cid : Nat) (day t : String)
    (h : db.lesson_plans.any (fun p => p.class_id == cid && p.day == day) = true) :
    (save_plan db cid day t).lesson_plans =
      db.lesson_plans.map (fun p => if p.class_id == cid && p.day == day then
        { p with plan_text := t } else p) := by
  unfold save_plan
  rw [if_pos h]

lemma save_plan_plans_neg (db : DB) (cid : Nat) (day t : String)
    (h : ¬ db.lesson_plans.any (fun p => p.class_id == cid && p.day == day) = true) :
    (save_plan db cid day t).lesson_plans =
      db.lesson_plans ++
        [{ id := db.next_plan_id, class_id := cid, day := day, plan_text := t }] := by
  unfold save_plan
  rw [if_neg h]

/-- C6: the note editor has upsert semantics keyed on (class id, day): when no
row exists for the pair one is inserted, and saving note `a` then note `b`
leaves exactly one plan row for the pair, whose text is `b` (under the
invariant, maintained by every operation, that at most one row per pair
exists). -/
theorem save_plan_upsert (db : DB) (cid : Nat) (day a b : String)
    (hinv : (pairPlans db cid day).length ≤ 1) :
    ((pairPlans db cid day).length = 0 →
        (save_plan db cid day a).lesson_plans =
          db.lesson_plans ++
            [{ id := db.next_plan_id, class_id := cid, day := day, plan_text := a }]) ∧
    (pairPlans (save_plan (save_plan db cid day a) cid day b) cid day).map
        (fun p => p.plan_text) = [b] := by
  by_cases hz : pairPlans db cid day = []
  · have hany : ¬ db.lesson_plans.any (fun p => p.class_id == cid && p.day == day) = true :=
      fun hc => (any_iff_pair db cid day).mp hc hz
    have hsave1 := save_plan_plans_neg db cid day a hany
    refine ⟨fun _ => hsave1, ?_⟩
    have hf1 : (save_plan db cid day a).lesson_plans.filter
        (fun p => p.class_id == cid && p.day == day) =
          [{ id := db.next_plan_id, class_id := cid, day := day, plan_text := a }] := by
      rw [hsave1, List.filter_append]
      have hz2 : db.lesson_plans.filter (fun p => p.class_id == cid && p.day == day) = [] := hz
      rw [hz2]
      simp
    have hany1 : (save_plan db cid day a).lesson_plans.any
        (fun p => p.class_id == cid && p.day == day) = true := by
      apply (any_iff_pair _ cid day).mpr
      show (save_plan db cid day a).lesson_plans.filter _ ≠ []
      rw [hf1]
      simp
    show ((save_plan (save_plan db cid day a) cid day b).lesson_plans.filter
        (fun p => p.class_id == cid && p.day == day)).map (fun p => p.plan_text) = [b]
    rw [save_plan_plans_pos _ cid day b hany1, filter_map_update, hf1]
    rfl
  · have hlen : (pairPlans db cid day).length = 1 := by
      have h0 : (pairPlans db cid day).length ≠ 0 := by
        intro hc
        exact hz (List.length_eq_zero.mp hc)
      omega
    obtain ⟨x, hx⟩ := List.length_eq_one.mp hlen
    have hany : db.lesson_plans.any (fun p => p.class_id == cid && p.day == day) = true :=
      (any_iff_pair db cid day).mpr hz
    have hsave1 := save_plan_plans_pos db cid day a hany
    refine ⟨fun hc => absurd hc (by omega), ?_⟩
    have hf1 : (save_plan db cid day a).lesson_plans.filter
        (fun p => p.class_id == cid && p.day == day) = [{ x with plan_text := a }] := by
      rw [hsave1, filter_map_update]
      have hx2 : db.lesson_plans.filter (fun p => p.class_id == cid && p.day == day) = [x] := hx
      rw [hx2]
      rfl
    have hany1 : (save_plan db cid day a).lesson_plans.any
        (fun p => p.class_id == cid && p.day == day) = true := by
      apply (any_iff_pair _ cid day).mpr
      show (save_plan db cid day a).lesson_plans.filter _ ≠ []
      rw [hf1]
      simp
    show ((save_plan (save_plan db cid day a) cid day b).lesson_plans.filter
        (fun p => p.class_id == cid && p.day == day)).map (fun p => p.plan_text) = [b]
    rw [save_plan_plans_pos _ cid day b hany1, filter_map_update, hf1]
    rfl

/-- Witness for C6 at a concrete store with no plan rows. -/
theorem save_plan_upsert_witness :
    ((pairPlans sampleDB 1 "Monday").length = 0 →
        (save_plan sampleDB 1 "Monday" "A").lesson_plans =
          sampleDB.lesson_plans ++
            [{ id := 1, class_id := 1, day := "Monday", plan_text := "A" }]) ∧
    (pairPlans (save_plan (save_plan sampleDB 1 "Monday" "A") 1 "Monday" "B") 1
        "Monday").map (fun p => p.plan_text) = ["B"] :=
  save_plan_upsert sampleDB 1 "Monday" "A" "B" (by decide)

lemma init_db_classes (db : DB) (h : db.schema.classes_exists = true) :
    (init_db db).classes = db.classes := by
  unfold init_db
  dsimp only
  rw [if_pos h]

lemma alter_classes_core (db : DB) :
    (alter_table_add_columns db).classes.map coreOf = db.classes.map coreOf := by
  have hg : ∀ r : ClassRow, coreOf { r with grade := "" } = coreOf r := fun r => rfl
  have ht : ∀ r : ClassRow, coreOf { r with time := "" } = coreOf r := fun r => rfl
  unfold alter_table_add_columns
  dsimp only
  split
  · split
    · dsimp only
      rw [map_map_proj _ _ _ ht, map_map_proj _ _ _ hg]
    · dsimp only
      rw [map_map_proj _ _ _ hg]
  · split
    · dsimp only
      rw [map_map_proj _ _ _ ht]
    · rfl

/-- C8: schema initialization is safe on every launch.  On a store with the
full schema already in place, creating the tables and re-attempting to add the
`grade` and `time` columns (the failure being swallowed) changes nothing at
all; and whenever the `classes` table already exists, the pre-existing fields
of its rows are never altered by the initialization pass. -/
theorem schema_init_safe (db : DB) :
    (db.schema = fullSchema → alter_table_add_columns (init_db db) = db) ∧
    (db.schema.classes_exists = true →
      (alter_table_add_columns (init_db db)).classes.map coreOf =
        db.classes.map coreOf) := by
  constructor
  · intro h
    rcases db with ⟨sch, cl, hist, pl, n1, n2, n3⟩
    have hs : sch = fullSchema := h
    subst hs
    rfl
  · intro hce
    rw [alter_classes_core, init_db_classes db hce]

/-- Witness for C8 at a concrete fully-initialised store. -/
theorem schema_init_safe_witness :
    alter_table_add_columns (init_db sampleDB) = sampleDB ∧
    (alter_table_add_columns (init_db sampleDB)).classes.map coreOf =
      sampleDB.classes.map coreOf :=
  ⟨(schema_init_safe sampleDB).1 rfl, (schema_init_safe sampleDB).2 rfl⟩
